import Mathlib

/-!
Shallow embedding of `src/app_data/full_sequences/consolidate_data.py`.

The script is a linear batch ETL: a FASTA-style sequence parser
(`parse_fasta_universal`), two reactivity readers (`process_react_numeric`,
`process_react_binary`), and a module-level driver loop over six dataset
labels that aligns heavy chains, light chains and reactivity values into
consolidated records and serializes them to one JSON file.

Modelling conventions:
  * file contents are `String`s; the file system is a partial map
    `FS := String → Option String` (`none` = the file does not exist);
  * Python text operations are modelled on `List Char` at the ASCII level
    (`str.strip`, `str.split`, `str.upper`, `str.lower`, `int(...)`);
  * fallible code (`FileNotFoundError` escaping `open`, `ValueError` from
    `int`) is modelled with `Except String`;
  * `print` output is collected as a `List String` of printed lines.
-/

namespace Consolidate

/-- ASCII whitespace as recognised by Python `str.strip()` / `str.split()`:
space, tab, newline, carriage return, vertical tab, form feed. -/
def isPyWs (c : Char) : Bool :=
  c.toNat = 32 || c.toNat = 9 || c.toNat = 10 || c.toNat = 13 ||
  c.toNat = 11 || c.toNat = 12

/-- Python `str.strip()` on a character list: drop leading and trailing
whitespace. -/
def stripList (l : List Char) : List Char :=
  ((l.dropWhile isPyWs).reverse.dropWhile isPyWs).reverse

/-- Python `str.strip()` on a `String`. -/
def pyStrip (s : String) : String := String.mk (stripList s.toList)

/-- The 26 lowercase/uppercase ASCII letter pairs. -/
def casePairs : List (Char × Char) :=
  [('a', 'A'), ('b', 'B'), ('c', 'C'), ('d', 'D'), ('e', 'E'), ('f', 'F'),
   ('g', 'G'), ('h', 'H'), ('i', 'I'), ('j', 'J'), ('k', 'K'), ('l', 'L'),
   ('m', 'M'), ('n', 'N'), ('o', 'O'), ('p', 'P'), ('q', 'Q'), ('r', 'R'),
   ('s', 'S'), ('t', 'T'), ('u', 'U'), ('v', 'V'), ('w', 'W'), ('x', 'X'),
   ('y', 'Y'), ('z', 'Z')]

/-- ASCII model of Python `str.upper()` on one character. -/
def pyUpperChar (c : Char) : Char :=
  match casePairs.find? (fun p => p.1 == c) with
  | some p => p.2
  | none => c

/-- ASCII model of Python `str.lower()` on one character. -/
def pyLowerChar (c : Char) : Char :=
  match casePairs.find? (fun p => p.2 == c) with
  | some p => p.1
  | none => c

/-- Python `str.upper()` on a `String` (ASCII model). -/
def pyUpper (s : String) : String := String.mk (s.toList.map pyUpperChar)

/-- Python `s.split(sep)` for a one-character separator: split at every
occurrence of `sep`, keeping empty fragments (`"".split(c) = [""]`). -/
def splitOnChar (sep : Char) : List Char → List (List Char)
  | [] => [[]]
  | c :: cs =>
    match splitOnChar sep cs with
    | [] => [[]]
    | r :: rs => if c = sep then [] :: r :: rs else (c :: r) :: rs

/-- The characters after the first newline of a record block; `[]` when the
block has no newline (the `ValueError` branch of `record_block.index`). -/
def afterFirstNewline : List Char → List Char
  | [] => []
  | c :: cs => if c = '\n' then cs else afterFirstNewline cs

/-- The cleaned sequence of one record block:
`"".join(sequence_part.split())`, optionally uppercased
(`cleaned_sequence.upper()` when `make_uppercase`). -/
def cleanSeq (make_uppercase : Bool) (block : List Char) : List Char :=
  let base := (afterFirstNewline block).filter (fun c => !isPyWs c)
  if make_uppercase then base.map pyUpperChar else base

/-- One iteration of the record loop of `parse_fasta_universal`: `none` when
the block is skipped (whitespace-only block, or empty cleaned sequence),
otherwise the emitted cleaned sequence. -/
def cleanBlock (make_uppercase : Bool) (block : List Char) : Option String :=
  if stripList block = [] then none
  else if cleanSeq make_uppercase block = [] then none
  else some (String.mk (cleanSeq make_uppercase block))

/-- Body of `parse_fasta_universal` on the contents of an existing file:
`f.read().strip().split('>')`, then the per-record cleaning loop. -/
def parseFastaContent (content : String) (make_uppercase : Bool) : List String :=
  (splitOnChar '>' (stripList content.toList)).filterMap (cleanBlock make_uppercase)

/-- `parse_fasta_universal`: `none` models the `FileNotFoundError` handler
returning `None` (after printing a warning); otherwise the parsed list. -/
def parse_fasta_universal (file : Option String) (make_uppercase : Bool) :
    Option (List String) :=
  file.map (fun content => parseFastaContent content make_uppercase)

/-- Decimal digit test, `'0' ≤ c ≤ '9'`. -/
def isDig (c : Char) : Bool := 48 ≤ c.toNat && c.toNat ≤ 57

/-- Value of a decimal digit character. -/
def digitVal (c : Char) : Nat := c.toNat - 48

/-- The natural number denoted by a digit list (most significant first). -/
def natOfDigits (l : List Char) : Nat := l.foldl (fun n c => n * 10 + digitVal c) 0

/-- A nonempty all-digit character list. -/
def digitsOk (l : List Char) : Bool := !l.isEmpty && l.all isDig

/-- Model of Python `int(s)` on an already-stripped string: an optional
sign followed by a nonempty run of decimal digits; `none` models the
`ValueError` raised on anything else. -/
def pyInt (l : List Char) : Option Int :=
  match l with
  | '+' :: rest => if digitsOk rest then some (natOfDigits rest) else none
  | '-' :: rest => if digitsOk rest then some (-(natOfDigits rest : Int)) else none
  | _ => if digitsOk l then some (natOfDigits l) else none

/-- The integer contributed by one line of the numeric reactivity loop:
`none` for a blank line (skipped) and for an unparsable line; used only to
state results, the source loop is `parseLines`. -/
def lineVal (l : List Char) : Option Int :=
  if stripList l = [] then none else pyInt (stripList l)

/-- The `for line in lines` loop of `process_react_numeric`: skip blank
lines, parse each non-blank line with `int(line.strip())`, and fail on the
first unparsable non-blank line (Python's uncaught `ValueError`). -/
def parseLines : List (List Char) → Except String (List Int)
  | [] => .ok []
  | l :: ls =>
    if stripList l = [] then parseLines ls
    else
      match pyInt (stripList l) with
      | none => .error ("invalid literal for int with base 10: " ++ String.mk (stripList l))
      | some n =>
        match parseLines ls with
        | .error e => .error e
        | .ok ns => .ok (n :: ns)

/-- The characters of the header-detection substring `"reacts"`. -/
def reactsChars : List Char := ['r', 'e', 'a', 'c', 't', 's']

/-- Whether `pat` is a leading segment of `hay`. -/
def startsL : List Char → List Char → Bool
  | _, [] => true
  | [], _ :: _ => false
  | h :: hs, p :: ps => h = p && startsL hs ps

/-- Whether `pat` occurs contiguously anywhere in `hay` (Python `in`). -/
def containsL (hay pat : List Char) : Bool :=
  startsL hay pat ||
    match hay with
    | [] => false
    | _ :: hs => containsL hs pat

/-- The data lines of the numeric reactivity file: all lines, minus the
first when `lines and "reacts" in lines[0].lower()`. -/
def restLines (content : String) : List (List Char) :=
  match splitOnChar '\n' content.toList with
  | [] => []
  | l0 :: tl => if containsL (l0.map pyLowerChar) reactsChars then tl else l0 :: tl

/-- `process_react_numeric` on the contents of an existing file. -/
def process_react_numeric (content : String) : Except String (List Int) :=
  parseLines (restLines content)

/-- One line of `process_react_binary`: `line.strip().upper()`, then
`'Y' ↦ 4`, `'N' ↦ 0`, anything else contributes no entry. -/
def binLineVal (l : List Char) : Option Int :=
  if (stripList l).map pyUpperChar = ['Y'] then some 4
  else if (stripList l).map pyUpperChar = ['N'] then some 0
  else none

/-- `process_react_binary` on the contents of an existing file. -/
def process_react_binary (content : String) : List Int :=
  (splitOnChar '\n' content.toList).filterMap binLineVal

/-! ## The driver loop (module-level code of `consolidate_data.py`) -/

/-- The file system: path → contents, `none` when the file does not exist. -/
abbrev FS : Type := String → Option String

/-- One output record: a dict with exactly the keys `type`, `NumReact`,
`DNA_fastaH_raw`, `DNA_fastaL_raw`. -/
structure ConsolidatedRecord where
  type : String
  NumReact : Int
  DNA_fastaH_raw : String
  DNA_fastaL_raw : String
deriving Repr, DecidableEq

/-- The fixed dataset-label list, in driver order
(`prefixes = ['flu', 'gut_hiv', 'nat_cntrl', 'nat_hiv', 'plos_hiv', 'mouse']`). -/
def labels : List String :=
  ["flu", "gut_hiv", "nat_cntrl", "nat_hiv", "plos_hiv", "mouse"]

/-- Heavy-chain file path: `os.path.join('.', f'X_fastaH{h_ext}')`,
where the extension is `.dat` for `mouse` and `.txt` otherwise. -/
def heavyPath (label : String) : String :=
  "./" ++ label ++ "_fastaH" ++ (if label == "mouse" then ".dat" else ".txt")

/-- Light-chain file path, same convention as `heavyPath`. -/
def lightPath (label : String) : String :=
  "./" ++ label ++ "_fastaL" ++ (if label == "mouse" then ".dat" else ".txt")

/-- The labels that use the binary reactivity reader. -/
def isBinaryLabel (label : String) : Bool :=
  label == "mouse" || label == "plos_hiv"

/-- Reactivity file path: `X_YN.txt` for binary labels, `X_NumReact.txt`
otherwise. -/
def reactPath (label : String) : String :=
  if isBinaryLabel label then "./" ++ label ++ "_YN.txt"
  else "./" ++ label ++ "_NumReact.txt"

/-- The per-label choice of reactivity reader, applied to the reactivity
file contents (the binary reader never fails). -/
def reactRun (label : String) (rc : String) : Except String (List Int) :=
  if isBinaryLabel label then .ok (process_react_binary rc)
  else process_react_numeric rc

/-- The `zip(heavy_chains, light_chains, reactivity)` record construction,
tagging each record with the dataset label. -/
def zip3Records (label : String) :
    List String → List String → List Int → List ConsolidatedRecord
  | h :: hs, l :: ls, r :: rs =>
    ⟨label, r, h, l⟩ :: zip3Records label hs ls rs
  | _, _, _ => []

/-- The `print(f"Processing X data...")` line. -/
def procMsg (label : String) : String := "Processing " ++ label ++ " data..."

/-- The warning printed by `parse_fasta_universal` on a missing file. -/
def fileWarning (path : String) : String :=
  "Warning: File not found at " ++ path ++ ". Skipping."

/-- The first line of the count-mismatch warning. -/
def mismatchMsg (label : String) : String :=
  "Warning: Mismatch in record counts for " ++ "prefix \x27" ++ label ++ "\x27. Skipping."

/-- The second line of the count-mismatch warning, stating all three counts. -/
def countsMsg (h l r : Nat) : String :=
  "  Heavy chains: " ++ toString h ++ ", Light chains: " ++ toString l ++
  ", Reactivity values: " ++ toString r

/-- One iteration of the driver loop for one label: the records it appends
to `all_data` and the lines it prints, or an uncaught exception
(`FileNotFoundError` from a reactivity-file `open`, or `ValueError` from
`int`). A missing heavy or light chain file is recovered (`continue`). -/
def processLabel (fs : FS) (label : String) :
    Except String (List ConsolidatedRecord × List String) :=
  let hfile := fs (heavyPath label)
  let lfile := fs (lightPath label)
  let baseLog := [procMsg label]
    ++ (match hfile with | none => [fileWarning (heavyPath label)] | some _ => [])
    ++ (match lfile with | none => [fileWarning (lightPath label)] | some _ => [])
  match hfile, lfile with
  | some hc, some lc =>
    let heavy := parseFastaContent hc (label == "mouse")
    let light := parseFastaContent lc (label == "mouse")
    match fs (reactPath label) with
    | none => .error ("FileNotFoundError: " ++ reactPath label)
    | some rc =>
      match reactRun label rc with
      | .error e => .error e
      | .ok reactivity =>
        if heavy.length ≠ light.length ∨ heavy.length ≠ reactivity.length then
          .ok ([], baseLog ++
            [mismatchMsg label, countsMsg heavy.length light.length reactivity.length])
        else
          .ok (zip3Records label heavy light reactivity, baseLog)
  | _, _ => .ok ([], baseLog)

/-- The driver loop over a list of labels, accumulating records and printed
lines; an uncaught exception aborts the whole loop. -/
def runLabels (fs : FS) : List String →
    Except String (List ConsolidatedRecord × List String)
  | [] => .ok ([], [])
  | p :: ps =>
    match processLabel fs p with
    | .error e => .error e
    | .ok (recs, logs) =>
      match runLabels fs ps with
      | .error e => .error e
      | .ok (recs2, logs2) => .ok (recs ++ recs2, logs ++ logs2)

/-- The final contents of `all_data` (the empty list when the run aborts). -/
def runRecords (fs : FS) : List ConsolidatedRecord :=
  match runLabels fs labels with
  | .ok (recs, _) => recs
  | .error _ => []

/-! ## Output serialization (`json.dump(all_data, f, indent=2)`) -/

/-- Lowercase hexadecimal digit. -/
def hexDigit (n : Nat) : Char :=
  if n < 10 then Char.ofNat (48 + n) else Char.ofNat (87 + n)

/-- Four lowercase hex digits. -/
def hex4 (n : Nat) : String :=
  String.mk [hexDigit (n / 4096 % 16), hexDigit (n / 256 % 16),
             hexDigit (n / 16 % 16), hexDigit (n % 16)]

/-- A `\uXXXX` escape, using a surrogate pair above the BMP, as Python's
`json` module does with its default `ensure_ascii=True`. -/
def uEscape (n : Nat) : String :=
  if n < 65536 then "\\u" ++ hex4 n
  else
    "\\u" ++ hex4 (55296 + (n - 65536) / 1024) ++
    "\\u" ++ hex4 (56320 + (n - 65536) % 1024)

/-- JSON escaping of one character (`ensure_ascii=True`): printable ASCII
other than quote and backslash is kept, everything else is escaped. -/
def jsonEscapeChar (c : Char) : String :=
  if c = '"' then "\\\"" else if c = '\\' then "\\\\"
  else if c = '\n' then "\\n" else if c = '\r' then "\\r"
  else if c = '\t' then "\\t" else if c = '\x08' then "\\b"
  else if c = '\x0c' then "\\f"
  else if c.toNat < 32 || 126 < c.toNat then uEscape c.toNat
  else String.mk [c]

/-- A JSON string literal. -/
def jsonStr (s : String) : String :=
  "\"" ++ String.join (s.toList.map jsonEscapeChar) ++ "\""

/-- One record as `json.dump` prints it at list level with `indent=2`. -/
def recordJson (r : ConsolidatedRecord) : String :=
  "  \x7b\n    \"type\": " ++ jsonStr r.type ++
  ",\n    \"NumReact\": " ++ toString r.NumReact ++
  ",\n    \"DNA_fastaH_raw\": " ++ jsonStr r.DNA_fastaH_raw ++
  ",\n    \"DNA_fastaL_raw\": " ++ jsonStr r.DNA_fastaL_raw ++ "\n  \x7d"

/-- `json.dump(all_data, f, indent=2)`: the full output file contents. -/
def jsonSerialize (recs : List ConsolidatedRecord) : String :=
  match recs with
  | [] => "[]"
  | _ => "[\n" ++ String.intercalate ",\n" (recs.map recordJson) ++ "\n]"

/-- The fixed output file name. -/
def output_filename : String := "consolidated_data_boughter_2020.json"

/-- The final success line printed by the script. -/
def successMsg : String :=
  "\nSuccessfully consolidated all data into \x27" ++ output_filename ++ "\x27"

/-- The final record-count summary line. -/
def totalMsg (n : Nat) : String := "Total records processed: " ++ toString n

/-- The observable outcome of a completed run: the files written (path and
contents, in write order) and the lines printed to standard output. -/
structure RunResult where
  written : List (String × String)
  stdout : List String
deriving Repr, DecidableEq

/-- The whole script: run the driver loop over the six labels, then write
the serialized `all_data` once and print the two summary lines; an
uncaught exception aborts with no output file written. -/
def runScript (fs : FS) : Except String RunResult :=
  match runLabels fs labels with
  | .error e => .error e
  | .ok (all_data, logs) =>
    .ok ⟨[(output_filename, jsonSerialize all_data)],
         logs ++ [successMsg, totalMsg all_data.length]⟩

/-! ## Helper lemmas -/

theorem pyUpperChar_ws (c : Char) : isPyWs (pyUpperChar c) = isPyWs c := by
  unfold pyUpperChar
  cases h : casePairs.find? (fun p => p.1 == c) with
  | none => rfl
  | some p =>
    have hp := List.mem_of_find?_eq_some h
    have hc : p.1 = c := by
      have := List.find?_some h
      exact beq_iff_eq.mp this
    have hws : ∀ q ∈ casePairs, isPyWs q.2 = isPyWs q.1 := by decide
    simp only [← hc, hws p hp]

theorem pyUpperChar_idem (c : Char) :
    pyUpperChar (pyUpperChar c) = pyUpperChar c := by
  unfold pyUpperChar
  cases h : casePairs.find? (fun p => p.1 == c) with
  | none => rw [h]
  | some p =>
    have hp := List.mem_of_find?_eq_some h
    have hnone : ∀ q ∈ casePairs, casePairs.find? (fun r => r.1 == q.2) = none := by
      decide
    rw [hnone p hp]

theorem mem_cleanSeq_not_ws {mk : Bool} {b : List Char} {c : Char}
    (hc : c ∈ cleanSeq mk b) : isPyWs c = false := by
  unfold cleanSeq at hc
  cases mk with
  | false =>
    simp only [if_neg] at hc
    have := (List.mem_filter.mp hc).2
    simpa using this
  | true =>
    simp only [if_pos] at hc
    obtain ⟨d, hd, rfl⟩ := List.mem_map.mp hc
    have := (List.mem_filter.mp hd).2
    rw [pyUpperChar_ws]
    simpa using this

theorem cleanBlock_eq_some {mk : Bool} {b : List Char} {s : String}
    (h : cleanBlock mk b = some s) :
    s = String.mk (cleanSeq mk b) ∧ cleanSeq mk b ≠ [] := by
  unfold cleanBlock at h
  by_cases h1 : stripList b = []
  · rw [if_pos h1] at h; exact absurd h (by simp)
  rw [if_neg h1] at h
  by_cases h2 : cleanSeq mk b = []
  · rw [if_pos h2] at h; exact absurd h (by simp)
  rw [if_neg h2] at h
  exact ⟨(Option.some.inj h).symm, h2⟩

theorem stringMk_ne_empty {l : List Char} (h : l ≠ []) : String.mk l ≠ "" := by
  intro hc
  exact h (congrArg String.data hc)

theorem mem_parseFastaContent {content : String} {mk : Bool} {s : String}
    (hs : s ∈ parseFastaContent content mk) :
    ∃ b ∈ splitOnChar '>' (stripList content.toList),
      cleanBlock mk b = some s := by
  unfold parseFastaContent at hs
  exact List.mem_filterMap.mp hs

theorem zip3Records_length {lab : String} {hs ls : List String} {rs : List Int}
    (h1 : hs.length = ls.length) (h2 : hs.length = rs.length) :
    (zip3Records lab hs ls rs).length = hs.length := by
  induction hs generalizing ls rs with
  | nil => simp [zip3Records]
  | cons x xs ih =>
    cases ls with
    | nil => simp at h1
    | cons y ys =>
      cases rs with
      | nil => simp at h2
      | cons z zs =>
        simp only [zip3Records, List.length_cons]
        rw [ih (by simpa using h1) (by simpa using h2)]

theorem zip3Records_type {lab : String} {hs ls : List String} {rs : List Int}
    {r : ConsolidatedRecord} (h : r ∈ zip3Records lab hs ls rs) :
    r.type = lab := by
  induction hs generalizing ls rs with
  | nil => simp [zip3Records] at h
  | cons x xs ih =>
    cases ls with
    | nil => simp [zip3Records] at h
    | cons y ys =>
      cases rs with
      | nil => simp [zip3Records] at h
      | cons z zs =>
        simp only [zip3Records, List.mem_cons] at h
        rcases h with rfl | h
        · rfl
        · exact ih h

theorem zip3Records_react {lab : String} {hs ls : List String} {rs : List Int}
    {r : ConsolidatedRecord} (h : r ∈ zip3Records lab hs ls rs) :
    r.NumReact ∈ rs := by
  induction hs generalizing ls rs with
  | nil => simp [zip3Records] at h
  | cons x xs ih =>
    cases ls with
    | nil => simp [zip3Records] at h
    | cons y ys =>
      cases rs with
      | nil => simp [zip3Records] at h
      | cons z zs =>
        simp only [zip3Records, List.mem_cons] at h
        rcases h with rfl | h
        · exact List.mem_cons_self _ _
        · exact List.mem_cons_of_mem _ (ih h)

theorem parseLines_all_ok {ls : List (List Char)}
    (h : ∀ l ∈ ls, stripList l = [] ∨ (pyInt (stripList l)).isSome = true) :
    parseLines ls = .ok (ls.filterMap lineVal) := by
  induction ls with
  | nil => rfl
  | cons l ls ih =>
    have hl := h l (List.mem_cons_self _ _)
    have hrest := ih (fun x hx => h x (List.mem_cons_of_mem _ hx))
    by_cases hb : stripList l = []
    · simp only [parseLines, if_pos hb, hrest, List.filterMap_cons]
      simp [lineVal, hb]
    · rcases hl with hl | hl
      · exact absurd hl hb
      obtain ⟨n, hn⟩ := Option.isSome_iff_exists.mp hl
      simp only [parseLines, if_neg hb, hn, hrest, List.filterMap_cons]
      simp [lineVal, hb, hn]

theorem parseLines_has_bad {ls : List (List Char)}
    (h : ∃ l ∈ ls, stripList l ≠ [] ∧ pyInt (stripList l) = none) :
    ∃ e, parseLines ls = .error e := by
  induction ls with
  | nil => simp at h
  | cons l ls ih =>
    obtain ⟨x, hx, hxs, hxn⟩ := h
    rcases List.mem_cons.mp hx with rfl | hx
    · refine ⟨"invalid literal for int with base 10: " ++ String.mk (stripList x), ?_⟩
      simp only [parseLines, if_neg hxs, hxn]
    · by_cases hb : stripList l = []
      · obtain ⟨e, he⟩ := ih ⟨x, hx, hxs, hxn⟩
        exact ⟨e, by simp only [parseLines, if_pos hb, he]⟩
      · cases hn : pyInt (stripList l) with
        | none =>
          exact ⟨"invalid literal for int with base 10: " ++ String.mk (stripList l),
            by simp only [parseLines, if_neg hb, hn]⟩
        | some n =>
          obtain ⟨e, he⟩ := ih ⟨x, hx, hxs, hxn⟩
          exact ⟨e, by simp only [parseLines, if_neg hb, hn, he]⟩

theorem mem_process_react_binary {content : String} {v : Int}
    (h : v ∈ process_react_binary content) : v = 4 ∨ v = 0 := by
  unfold process_react_binary at h
  obtain ⟨l, _, hl⟩ := List.mem_filterMap.mp h
  unfold binLineVal at hl
  by_cases h1 : (stripList l).map pyUpperChar = ['Y']
  · rw [if_pos h1] at hl; exact Or.inl (Option.some.inj hl).symm
  rw [if_neg h1] at hl
  by_cases h2 : (stripList l).map pyUpperChar = ['N']
  · rw [if_pos h2] at hl; exact Or.inr (Option.some.inj hl).symm
  rw [if_neg h2] at hl
  exact absurd hl (by simp)

/-- Decidable success condition for one dataset: all three input files
exist, the selected reactivity reader succeeds, and the heavy, light and
reactivity counts agree. -/
def goodDatasetB (fs : FS) (l : String) : Bool :=
  match fs (heavyPath l), fs (lightPath l), fs (reactPath l) with
  | some hc, some lc, some rc =>
    match reactRun l rc with
    | .ok r =>
      ((parseFastaContent hc (l == "mouse")).length ==
        (parseFastaContent lc (l == "mouse")).length)
      && ((parseFastaContent hc (l == "mouse")).length == r.length)
    | .error _ => false
  | _, _, _ => false

/-- The records a successfully-consumed dataset contributes. -/
def goodRecords (fs : FS) (l : String) : List ConsolidatedRecord :=
  match fs (heavyPath l), fs (lightPath l), fs (reactPath l) with
  | some hc, some lc, some rc =>
    match reactRun l rc with
    | .ok r =>
      zip3Records l (parseFastaContent hc (l == "mouse"))
        (parseFastaContent lc (l == "mouse")) r
    | .error _ => []
  | _, _, _ => []

/-- The heavy-chain record count of a dataset (0 when the file is missing). -/
def goodCount (fs : FS) (l : String) : Nat :=
  match fs (heavyPath l) with
  | some hc => (parseFastaContent hc (l == "mouse")).length
  | none => 0

theorem processLabel_good {fs : FS} {l : String}
    (h : goodDatasetB fs l = true) :
    processLabel fs l = .ok (goodRecords fs l, [procMsg l]) := by
  unfold goodDatasetB at h
  cases hh : fs (heavyPath l) with
  | none => rw [hh] at h; cases h
  | some hc =>
    rw [hh] at h
    cases hl : fs (lightPath l) with
    | none => rw [hl] at h; cases h
    | some lc =>
      rw [hl] at h
      cases hr : fs (reactPath l) with
      | none => rw [hr] at h; cases h
      | some rc =>
        rw [hr] at h
        dsimp only at h
        cases hrr : reactRun l rc with
        | error e => rw [hrr] at h; cases h
        | ok r =>
          rw [hrr] at h
          dsimp only at h
          have heq := Bool.and_eq_true_iff.mp h
          have h1 : (parseFastaContent hc (l == "mouse")).length =
              (parseFastaContent lc (l == "mouse")).length :=
            beq_iff_eq.mp heq.1
          have h2 : (parseFastaContent hc (l == "mouse")).length = r.length :=
            beq_iff_eq.mp heq.2
          unfold processLabel goodRecords
          rw [hh, hl, hr]
          dsimp only
          rw [hrr]
          dsimp only
          rw [if_neg (show ¬((parseFastaContent hc (l == "mouse")).length ≠
            (parseFastaContent lc (l == "mouse")).length ∨
            (parseFastaContent hc (l == "mouse")).length ≠ r.length) by
              push_neg; exact ⟨h1, h2⟩)]
          simp

theorem goodRecords_length {fs : FS} {l : String}
    (h : goodDatasetB fs l = true) :
    (goodRecords fs l).length = goodCount fs l := by
  unfold goodDatasetB at h
  unfold goodRecords goodCount
  cases hh : fs (heavyPath l) with
  | none => rw [hh] at h; cases h
  | some hc =>
    rw [hh] at h
    cases hl : fs (lightPath l) with
    | none => rw [hl] at h; cases h
    | some lc =>
      rw [hl] at h
      cases hr : fs (reactPath l) with
      | none => rw [hr] at h; cases h
      | some rc =>
        rw [hr] at h
        dsimp only at h
        cases hrr : reactRun l rc with
        | error e => rw [hrr] at h; cases h
        | ok r =>
          rw [hrr] at h
          dsimp only at h
          have heq := Bool.and_eq_true_iff.mp h
          dsimp only
          rw [hrr]
          dsimp only
          exact zip3Records_length (beq_iff_eq.mp heq.1) (beq_iff_eq.mp heq.2)

theorem goodRecords_type {fs : FS} {l : String} {r : ConsolidatedRecord}
    (h : r ∈ goodRecords fs l) : r.type = l := by
  unfold goodRecords at h
  cases hh : fs (heavyPath l) with
  | none => rw [hh] at h; simp at h
  | some hc =>
    rw [hh] at h
    cases hl : fs (lightPath l) with
    | none => rw [hl] at h; simp at h
    | some lc =>
      rw [hl] at h
      cases hr : fs (reactPath l) with
      | none => rw [hr] at h; simp at h
      | some rc =>
        rw [hr] at h
        dsimp only at h
        cases hrr : reactRun l rc with
        | error e => rw [hrr] at h; simp at h
        | ok rv => rw [hrr] at h; exact zip3Records_type h

theorem runLabels_good {fs : FS} {ps : List String}
    (h : ∀ l ∈ ps, goodDatasetB fs l = true) :
    runLabels fs ps = .ok ((ps.map (goodRecords fs)).flatten, ps.map procMsg) := by
  induction ps with
  | nil => rfl
  | cons p ps ih =>
    have hp := processLabel_good (h p (List.mem_cons_self _ _))
    have hrest := ih (fun x hx => h x (List.mem_cons_of_mem _ hx))
    simp only [runLabels, hp]
    rw [hrest]
    simp [List.flatten]

theorem mem_runLabels {fs : FS} {ps : List String}
    {recs : List ConsolidatedRecord} {logs : List String}
    {r : ConsolidatedRecord}
    (h : runLabels fs ps = .ok (recs, logs)) (hr : r ∈ recs) :
    ∃ l ∈ ps, ∃ rs lg, processLabel fs l = .ok (rs, lg) ∧ r ∈ rs := by
  induction ps generalizing recs logs with
  | nil =>
    simp only [runLabels, Except.ok.injEq, Prod.mk.injEq] at h
    obtain ⟨rfl, rfl⟩ := h
    simp at hr
  | cons p ps ih =>
    simp only [runLabels] at h
    cases hp : processLabel fs p with
    | error e => rw [hp] at h; exact absurd h (by simp)
    | ok pr =>
      rw [hp] at h
      cases hps : runLabels fs ps with
      | error e => rw [hps] at h; exact absurd h (by simp)
      | ok pq =>
        rw [hps] at h
        obtain ⟨rs0, lg0⟩ := pr
        obtain ⟨recs2, logs2⟩ := pq
        simp only [Except.ok.injEq, Prod.mk.injEq] at h
        obtain ⟨rfl, rfl⟩ := h
        rcases List.mem_append.mp hr with hr | hr
        · exact ⟨p, List.mem_cons_self _ _, rs0, lg0, hp, hr⟩
        · obtain ⟨l, hlm, rs, lg, hpl, hrm⟩ := ih hps hr
          exact ⟨l, List.mem_cons_of_mem _ hlm, rs, lg, hpl, hrm⟩

theorem mem_processLabel_react {fs : FS} {l : String}
    {rs : List ConsolidatedRecord} {lg : List String} {r : ConsolidatedRecord}
    (h : processLabel fs l = .ok (rs, lg)) (hr : r ∈ rs) :
    ∃ rc vs, fs (reactPath l) = some rc ∧ reactRun l rc = .ok vs ∧
      r.NumReact ∈ vs := by
  unfold processLabel at h
  cases hh : fs (heavyPath l) with
  | none =>
    rw [hh] at h
    cases hl : fs (lightPath l) with
    | none =>
      rw [hl] at h
      simp only [Except.ok.injEq, Prod.mk.injEq] at h
      obtain ⟨rfl, rfl⟩ := h
      simp at hr
    | some lc =>
      rw [hl] at h
      simp only [Except.ok.injEq, Prod.mk.injEq] at h
      obtain ⟨rfl, rfl⟩ := h
      simp at hr
  | some hc =>
    rw [hh] at h
    cases hl : fs (lightPath l) with
    | none =>
      rw [hl] at h
      simp only [Except.ok.injEq, Prod.mk.injEq] at h
      obtain ⟨rfl, rfl⟩ := h
      simp at hr
    | some lc =>
      rw [hl] at h
      cases hrf : fs (reactPath l) with
      | none => rw [hrf] at h; exact absurd h (by simp)
      | some rc =>
        rw [hrf] at h
        dsimp only at h
        cases hrr : reactRun l rc with
        | error e => rw [hrr] at h; exact absurd h (by simp)
        | ok vs =>
          rw [hrr] at h
          dsimp only at h
          by_cases hm : (parseFastaContent hc (l == "mouse")).length ≠
              (parseFastaContent lc (l == "mouse")).length ∨
              (parseFastaContent hc (l == "mouse")).length ≠ vs.length
          · rw [if_pos hm] at h
            simp only [Except.ok.injEq, Prod.mk.injEq] at h
            obtain ⟨rfl, rfl⟩ := h
            simp at hr
          · rw [if_neg hm] at h
            simp only [Except.ok.injEq, Prod.mk.injEq] at h
            obtain ⟨rfl, rfl⟩ := h
            exact ⟨rc, vs, rfl, hrr, zip3Records_react hr⟩

theorem processLabel_skip {fs : FS} {l : String}
    (h : fs (heavyPath l) = none ∨ fs (lightPath l) = none) :
    ∃ logs, processLabel fs l = .ok ([], logs) ∧
      (fileWarning (heavyPath l) ∈ logs ∨ fileWarning (lightPath l) ∈ logs) := by
  unfold processLabel
  cases hh : fs (heavyPath l) with
  | none =>
    cases hl : fs (lightPath l) with
    | none => exact ⟨_, rfl, Or.inl (by simp)⟩
    | some lc => exact ⟨_, rfl, Or.inl (by simp)⟩
  | some hc =>
    cases hl : fs (lightPath l) with
    | none => exact ⟨_, rfl, Or.inr (by simp)⟩
    | some lc =>
      rcases h with h | h
      · rw [hh] at h; exact Option.noConfusion h
      · rw [hl] at h; exact Option.noConfusion h

theorem processLabel_react_missing {fs : FS} {l hc lc : String}
    (hh : fs (heavyPath l) = some hc) (hl : fs (lightPath l) = some lc)
    (hr : fs (reactPath l) = none) :
    processLabel fs l = .error ("FileNotFoundError: " ++ reactPath l) := by
  unfold processLabel
  rw [hh, hl]
  dsimp only
  rw [hr]

theorem processLabel_mismatch {fs : FS} {l hc lc rc : String} {r : List Int}
    (hh : fs (heavyPath l) = some hc) (hl : fs (lightPath l) = some lc)
    (hrc : fs (reactPath l) = some rc) (hr : reactRun l rc = .ok r)
    (hm : (parseFastaContent hc (l == "mouse")).length ≠
        (parseFastaContent lc (l == "mouse")).length ∨
      (parseFastaContent hc (l == "mouse")).length ≠ r.length) :
    processLabel fs l = .ok ([], [procMsg l, mismatchMsg l,
      countsMsg (parseFastaContent hc (l == "mouse")).length
        (parseFastaContent lc (l == "mouse")).length r.length]) := by
  unfold processLabel
  rw [hh, hl]
  dsimp only
  rw [hrc]
  dsimp only
  rw [hr]
  dsimp only
  rw [if_pos hm]
  simp

theorem runLabels_cons_ok {fs : FS} {p : String} {ps : List String}
    {rs recs : List ConsolidatedRecord} {ls logs : List String}
    (hp : processLabel fs p = .ok (rs, ls))
    (hr : runLabels fs ps = .ok (recs, logs)) :
    runLabels fs (p :: ps) = .ok (rs ++ recs, ls ++ logs) := by
  simp only [runLabels, hp]
  rw [hr]

theorem runLabels_head_error {fs : FS} {p : String} {ps : List String}
    {e : String} (h : processLabel fs p = .error e) :
    runLabels fs (p :: ps) = .error e := by
  simp only [runLabels, h]

theorem runScript_error {fs : FS} {e : String}
    (h : runLabels fs labels = .error e) : runScript fs = .error e := by
  unfold runScript
  rw [h]

theorem map_upper_idem (l : List Char) :
    (l.map pyUpperChar).map pyUpperChar = l.map pyUpperChar := by
  rw [List.map_map]
  exact List.map_congr_left (fun c _ => pyUpperChar_idem c)

theorem cleanSeq_true (b : List Char) :
    cleanSeq true b = (cleanSeq false b).map pyUpperChar := by
  simp [cleanSeq]

theorem splitOnChar_ne_nil (sep : Char) (l : List Char) :
    splitOnChar sep l ≠ [] := by
  cases l with
  | nil => simp [splitOnChar]
  | cons c cs =>
    unfold splitOnChar
    cases h : splitOnChar sep cs with
    | nil => simp
    | cons r rs => by_cases hc : c = sep <;> simp [hc]

theorem splitOnChar_sep_head (sep : Char) (cs : List Char) :
    splitOnChar sep (sep :: cs) = [] :: splitOnChar sep cs := by
  cases h : splitOnChar sep cs with
  | nil => exact absurd h (splitOnChar_ne_nil sep cs)
  | cons r rs =>
    conv_lhs => rw [splitOnChar]
    rw [h]
    dsimp only
    rw [if_pos rfl]

theorem runLabels_append (fs : FS) (xs ys : List String)
    {r1 r2 : List ConsolidatedRecord} {l1 l2 : List String}
    (h1 : runLabels fs xs = .ok (r1, l1)) (h2 : runLabels fs ys = .ok (r2, l2)) :
    runLabels fs (xs ++ ys) = .ok (r1 ++ r2, l1 ++ l2) := by
  induction xs generalizing r1 l1 with
  | nil =>
    simp only [runLabels, Except.ok.injEq, Prod.mk.injEq] at h1
    obtain ⟨rfl, rfl⟩ := h1
    simpa using h2
  | cons p ps ih =>
    simp only [runLabels] at h1
    cases hp : processLabel fs p with
    | error e => rw [hp] at h1; exact absurd h1 (by simp)
    | ok pr =>
      rw [hp] at h1
      cases hps : runLabels fs ps with
      | error e => rw [hps] at h1; exact absurd h1 (by simp)
      | ok pq =>
        rw [hps] at h1
        obtain ⟨recs, logs⟩ := pr
        obtain ⟨recs2, logs2⟩ := pq
        simp only [Except.ok.injEq, Prod.mk.injEq] at h1
        obtain ⟨rfl, rfl⟩ := h1
        have hys : runLabels fs (ps ++ ys) = .ok (recs2 ++ r2, logs2 ++ l2) :=
          ih hps
        show runLabels fs (p :: (ps ++ ys)) = _
        simp only [runLabels, hp]
        rw [hys]
        simp [List.append_assoc]

/-! ## Concrete file systems used as witnesses and counterexamples -/

/-- A file system with a complete, consistent configuration for all six
datasets (one record each, except two for gut_hiv). -/
def wfs : FS := fun p =>
  if p = "./flu_fastaH.txt" then some ">h1\nGAT" else
  if p = "./flu_fastaL.txt" then some ">h1\nTTC" else
  if p = "./flu_NumReact.txt" then some "NumReacts\n2\n" else
  if p = "./gut_hiv_fastaH.txt" then some ">h1\nAAA\n>h2\nCCC" else
  if p = "./gut_hiv_fastaL.txt" then some ">h1\nGGG\n>h2\nTTT" else
  if p = "./gut_hiv_NumReact.txt" then some "0\n7" else
  if p = "./nat_cntrl_fastaH.txt" then some ">x\nAC" else
  if p = "./nat_cntrl_fastaL.txt" then some ">x\nGT" else
  if p = "./nat_cntrl_NumReact.txt" then some "1" else
  if p = "./nat_hiv_fastaH.txt" then some ">x\nAG" else
  if p = "./nat_hiv_fastaL.txt" then some ">x\nCT" else
  if p = "./nat_hiv_NumReact.txt" then some "3" else
  if p = "./plos_hiv_fastaH.txt" then some ">x\nTT" else
  if p = "./plos_hiv_fastaL.txt" then some ">x\nAA" else
  if p = "./plos_hiv_YN.txt" then some "Y" else
  if p = "./mouse_fastaH.dat" then some ">m\nacgt" else
  if p = "./mouse_fastaL.dat" then some ">m\ntgca" else
  if p = "./mouse_YN.txt" then some "n" else
  none

/-- A file system where the flu heavy and light chain files exist but the
flu numeric reactivity file does not. -/
def cfs1 : FS := fun p =>
  if p = "./flu_fastaH.txt" then some ">h\nAAA" else
  if p = "./flu_fastaL.txt" then some ">h\nCCC" else
  none

/-- A file system where the flu dataset has 2 heavy chains, 1 light chain
and 2 reactivity values. -/
def cfs4 : FS := fun p =>
  if p = "./flu_fastaH.txt" then some ">a\nAA\n>b\nCC" else
  if p = "./flu_fastaL.txt" then some ">a\nGG" else
  if p = "./flu_NumReact.txt" then some "1\n2" else
  none

/-- A file system where the flu numeric reactivity file contains an
unparsable line. -/
def cfs5 : FS := fun p =>
  if p = "./flu_fastaH.txt" then some ">h\nAA" else
  if p = "./flu_fastaL.txt" then some ">h\nCC" else
  if p = "./flu_NumReact.txt" then some "1\nx" else
  none

/-- A file system where the flu numeric reactivity file contains a
negative value. -/
def cfs8 : FS := fun p =>
  if p = "./flu_fastaH.txt" then some ">h\nAAA" else
  if p = "./flu_fastaL.txt" then some ">h\nCCC" else
  if p = "./flu_NumReact.txt" then some "-5" else
  none

/-- A file system where only the mouse dataset files exist. -/
def fs8w : FS := fun p =>
  if p = "./mouse_fastaH.dat" then some ">m\nacgt" else
  if p = "./mouse_fastaL.dat" then some ">m\ntgca" else
  if p = "./mouse_YN.txt" then some "Y" else
  none

/-- The file system where no file exists. -/
def emptyFS : FS := fun _ => none

/-- The lines printed when every input file is missing. -/
def emptyLogs : List String :=
  (labels.map (fun l =>
    [procMsg l, fileWarning (heavyPath l), fileWarning (lightPath l)])).flatten


/-! ## Claim theorems -/

/-- C1, counterexample. The claim says a missing required input file is
never fatal to the run, but a missing reactivity file is: with the flu
heavy and light chain files present and `./flu_NumReact.txt` absent, the
uncaught `FileNotFoundError` aborts the whole run. -/
theorem C1_counterexample :
    cfs1 (reactPath "flu") = none ∧
    runScript cfs1 = .error ("FileNotFoundError: " ++ reactPath "flu") :=
  ⟨rfl, rfl⟩

/-- C1, amended. A missing heavy-chain or light-chain file is recovered at
the dataset boundary: the dataset contributes no records, a file-not-found
warning is printed, and the run continues with the remaining datasets.
A missing reactivity file, reached only when both sequence files exist, is
not recovered: it raises an uncaught error. -/
theorem C1_missing_file_amended (fs : FS) (l : String) :
    ((fs (heavyPath l) = none ∨ fs (lightPath l) = none) →
      ∃ logs, processLabel fs l = .ok ([], logs) ∧
        (fileWarning (heavyPath l) ∈ logs ∨ fileWarning (lightPath l) ∈ logs))
    ∧ (∀ ps recs logs, (fs (heavyPath l) = none ∨ fs (lightPath l) = none) →
        runLabels fs ps = .ok (recs, logs) →
        ∃ l1, runLabels fs (l :: ps) = .ok (recs, l1 ++ logs))
    ∧ (∀ hc lc, fs (heavyPath l) = some hc → fs (lightPath l) = some lc →
        fs (reactPath l) = none →
        processLabel fs l = .error ("FileNotFoundError: " ++ reactPath l)) := by
  refine ⟨processLabel_skip, ?_, ?_⟩
  · intro ps recs logs h hrun
    obtain ⟨lg, hpl, _⟩ := processLabel_skip h
    exact ⟨lg, by simpa using runLabels_cons_ok hpl hrun⟩
  · intro hc lc hh hl hr
    exact processLabel_react_missing hh hl hr

/-- Witness for the amended C1: under `cfs1` the mouse dataset (missing
heavy file) is skipped with a warning and the loop continues, while the flu
dataset (missing reactivity file) raises. -/
theorem C1_missing_file_amended_witness :
    (∃ logs, processLabel cfs1 "mouse" = .ok ([], logs) ∧
      (fileWarning (heavyPath "mouse") ∈ logs ∨
        fileWarning (lightPath "mouse") ∈ logs))
    ∧ (∃ l1, runLabels cfs1 ["mouse"] = .ok ([], l1 ++ []))
    ∧ processLabel cfs1 "flu" = .error ("FileNotFoundError: " ++ reactPath "flu") :=
  ⟨(C1_missing_file_amended cfs1 "mouse").1 (Or.inl rfl),
   (C1_missing_file_amended cfs1 "mouse").2.1 [] [] [] (Or.inl rfl) rfl,
   (C1_missing_file_amended cfs1 "flu").2.2 ">h\nAAA" ">h\nCCC" rfl rfl rfl⟩

/-- C2. If for every label in the fixed order
`["flu", "gut_hiv", "nat_cntrl", "nat_hiv", "plos_hiv", "mouse"]` the three
input files exist, the reactivity reader succeeds, and the heavy, light and
reactivity counts agree, then the driver completes, the output collection
is the concatenation of the per-dataset record lists in label order, its
length is the sum of the per-dataset counts, and every record carries the
`type` tag of the dataset it came from. Each record is a
`ConsolidatedRecord`, a structure with exactly the fields `type`,
`NumReact`, `DNA_fastaH_raw` and `DNA_fastaL_raw`. -/
theorem C2_end_to_end (fs : FS)
    (h : ∀ l ∈ labels, goodDatasetB fs l = true) :
    runLabels fs labels =
      .ok ((labels.map (goodRecords fs)).flatten, labels.map procMsg)
    ∧ runRecords fs = (labels.map (goodRecords fs)).flatten
    ∧ (runRecords fs).length = (labels.map (goodCount fs)).sum
    ∧ ∀ l ∈ labels, ∀ r ∈ goodRecords fs l, r.type = l := by
  have hrun := runLabels_good h
  have hrr : runRecords fs = (labels.map (goodRecords fs)).flatten := by
    unfold runRecords
    rw [hrun]
  refine ⟨hrun, hrr, ?_, fun l hl r hr => goodRecords_type hr⟩
  rw [hrr, List.length_flatten, List.map_map]
  congr 1
  exact List.map_congr_left (fun l hl => goodRecords_length (h l hl))

/-- Witness for C2: a complete six-dataset file system with counts
1, 2, 1, 1, 1, 1. -/
theorem C2_end_to_end_witness :
    (∀ l ∈ labels, goodDatasetB wfs l = true)
    ∧ (runLabels wfs labels =
        .ok ((labels.map (goodRecords wfs)).flatten, labels.map procMsg)
      ∧ runRecords wfs = (labels.map (goodRecords wfs)).flatten
      ∧ (runRecords wfs).length = (labels.map (goodCount wfs)).sum
      ∧ ∀ l ∈ labels, ∀ r ∈ goodRecords wfs l, r.type = l) :=
  ⟨by decide, C2_end_to_end wfs (by decide)⟩

/-- C3. Every string emitted by the sequence parser is nonempty and
contains no whitespace character; empty-cleaning records are omitted (the
emitted strings are exactly the `filterMap` of the record-cleaning step
over the delimiter-split fragments, in file order). -/
theorem C3_parser_clean (content : String) (make_uppercase : Bool) (s : String)
    (hs : s ∈ parseFastaContent content make_uppercase) :
    s ≠ "" ∧ ∀ c ∈ s.toList, isPyWs c = false := by
  obtain ⟨b, hb, hcb⟩ := mem_parseFastaContent hs
  obtain ⟨rfl, hne⟩ := cleanBlock_eq_some hcb
  exact ⟨stringMk_ne_empty hne, fun c hc => mem_cleanSeq_not_ws hc⟩

/-- Witness for C3 at a record whose sequence lines contain spaces and a
newline. -/
theorem C3_parser_clean_witness :
    "AB" ∈ parseFastaContent ">h\nA B\n" false
    ∧ ("AB" ≠ "" ∧ ∀ c ∈ "AB".toList, isPyWs c = false) :=
  ⟨by decide, C3_parser_clean ">h\nA B\n" false "AB" (by decide)⟩

/-- C4. When a dataset's three input files exist and its reactivity reader
succeeds but the heavy, light and reactivity counts are not all equal, the
dataset contributes zero records and prints exactly the two-line diagnostic
stating all three counts; the surrounding driver loop still produces the
records of the datasets before and after it, unchanged. -/
theorem C4_count_mismatch (fs : FS) (p hcv lcv rcv : String) (r : List Int)
    (hh : fs (heavyPath p) = some hcv) (hl : fs (lightPath p) = some lcv)
    (hrc : fs (reactPath p) = some rcv) (hr : reactRun p rcv = .ok r)
    (hm : (parseFastaContent hcv (p == "mouse")).length ≠
        (parseFastaContent lcv (p == "mouse")).length ∨
      (parseFastaContent hcv (p == "mouse")).length ≠ r.length) :
    processLabel fs p = .ok ([], [procMsg p, mismatchMsg p,
      countsMsg (parseFastaContent hcv (p == "mouse")).length
        (parseFastaContent lcv (p == "mouse")).length r.length])
    ∧ ∀ ps1 ps2 recs1 logs1 recs2 logs2,
        runLabels fs ps1 = .ok (recs1, logs1) →
        runLabels fs ps2 = .ok (recs2, logs2) →
        runLabels fs (ps1 ++ p :: ps2) = .ok (recs1 ++ recs2,
          logs1 ++ ([procMsg p, mismatchMsg p,
            countsMsg (parseFastaContent hcv (p == "mouse")).length
              (parseFastaContent lcv (p == "mouse")).length r.length] ++ logs2)) := by
  have hpl := processLabel_mismatch hh hl hrc hr hm
  refine ⟨hpl, ?_⟩
  intro ps1 ps2 recs1 logs1 recs2 logs2 h1 h2
  have hcons := runLabels_cons_ok hpl h2
  have := runLabels_append fs ps1 (p :: ps2) h1 hcons
  simpa using this

/-- Witness for C4: flu with 2 heavy chains, 1 light chain, 2 reactivity
values contributes nothing and logs the counts. -/
theorem C4_count_mismatch_witness :
    processLabel cfs4 "flu" =
      .ok ([], [procMsg "flu", mismatchMsg "flu", countsMsg 2 1 2])
    ∧ runLabels cfs4 ["flu"] =
      .ok ([], [] ++ ([procMsg "flu", mismatchMsg "flu", countsMsg 2 1 2] ++ [])) := by
  have h := C4_count_mismatch cfs4 "flu" ">a\nAA\n>b\nCC" ">a\nGG" "1\n2" [1, 2]
    rfl rfl rfl rfl (by decide)
  exact ⟨h.1, h.2 [] [] [] [] [] [] rfl rfl⟩

/-- C5. The numeric reactivity reader drops the first line exactly when the
lowercased first line contains "reacts"; when every remaining non-blank
line parses as an integer it returns their values in order, skipping blank
lines silently; when some non-blank line does not parse it fails; and that
failure propagates uncaught through the driver, aborting the run. -/
theorem C5_numeric_reader (content : String) (fs : FS) (hcv lcv : String) :
    (restLines content =
      if containsL (((splitOnChar '\n' content.toList).headD []).map pyLowerChar)
          reactsChars
      then (splitOnChar '\n' content.toList).tail
      else splitOnChar '\n' content.toList)
    ∧ ((∀ l ∈ restLines content,
          stripList l = [] ∨ (pyInt (stripList l)).isSome = true) →
        process_react_numeric content = .ok ((restLines content).filterMap lineVal))
    ∧ ((∃ l ∈ restLines content, stripList l ≠ [] ∧ pyInt (stripList l) = none) →
        ∃ e, process_react_numeric content = .error e)
    ∧ (fs (heavyPath "flu") = some hcv → fs (lightPath "flu") = some lcv →
        fs (reactPath "flu") = some content →
        (∃ l ∈ restLines content, stripList l ≠ [] ∧ pyInt (stripList l) = none) →
        ∃ e, runScript fs = .error e) := by
  refine ⟨?_, parseLines_all_ok, parseLines_has_bad, ?_⟩
  · unfold restLines
    cases hsp : splitOnChar '\n' content.toList with
    | nil => simp
    | cons l0 tl => rfl
  · intro hh hl hrc hbad
    obtain ⟨e, he⟩ := parseLines_has_bad hbad
    have hrr : reactRun "flu" content = .error e := by
      unfold reactRun
      rw [if_neg (by decide : ¬ isBinaryLabel "flu" = true)]
      exact he
    have hpe : processLabel fs "flu" = .error e := by
      unfold processLabel
      rw [hh, hl]
      dsimp only
      rw [hrc]
      dsimp only
      rw [hrr]
    refine ⟨e, runScript_error ?_⟩
    show runLabels fs ("flu" :: ["gut_hiv", "nat_cntrl", "nat_hiv", "plos_hiv", "mouse"]) =
      .error e
    exact runLabels_head_error hpe

/-- Witness for C5: a header line is dropped and blanks skipped; an
unparsable line fails; and with `cfs5` the whole run aborts. -/
theorem C5_numeric_reader_witness :
    process_react_numeric "Reacts\n1\n\n2" = .ok [1, 2]
    ∧ (∃ e, process_react_numeric "1\nx" = .error e)
    ∧ (∃ e, runScript cfs5 = .error e) := by
  refine ⟨?_, ?_, ?_⟩
  · have h := (C5_numeric_reader "Reacts\n1\n\n2" emptyFS "" "").2.1 (by decide)
    rw [h]
    rfl
  · exact (C5_numeric_reader "1\nx" emptyFS "" "").2.2.1 (by decide)
  · exact (C5_numeric_reader "1\nx" cfs5 ">h\nAA" ">h\nCC").2.2.2 rfl rfl rfl (by decide)

/-- C6. The binary reactivity reader maps each line through strip and
uppercase; a resulting "Y" yields 4, a resulting "N" yields 0 (hence the
mapping is case-insensitive), any other line content, blank lines included,
contributes no entry, and the reader is total (never errors), producing
only the values 4 and 0. -/
theorem C6_binary_reader (content line : String) :
    process_react_binary content =
      (splitOnChar '\n' content.toList).filterMap binLineVal
    ∧ ((stripList line.toList).map pyUpperChar = ['Y'] →
        binLineVal line.toList = some 4)
    ∧ ((stripList line.toList).map pyUpperChar = ['N'] →
        binLineVal line.toList = some 0)
    ∧ ((stripList line.toList).map pyUpperChar ≠ ['Y'] →
        (stripList line.toList).map pyUpperChar ≠ ['N'] →
        binLineVal line.toList = none)
    ∧ (∀ v ∈ process_react_binary content, v = 4 ∨ v = 0) := by
  refine ⟨rfl, ?_, ?_, ?_, fun v hv => mem_process_react_binary hv⟩
  · intro h
    unfold binLineVal
    rw [if_pos h]
  · intro h
    unfold binLineVal
    rw [if_neg (by rw [h]; decide), if_pos h]
  · intro h1 h2
    unfold binLineVal
    rw [if_neg h1, if_neg h2]

/-- Witness for C6: lowercase and padded inputs map case-insensitively,
other content contributes nothing, and a mixed file yields only 4 and 0. -/
theorem C6_binary_reader_witness :
    binLineVal " y ".toList = some 4
    ∧ binLineVal "n".toList = some 0
    ∧ binLineVal "x".toList = none
    ∧ (∀ v ∈ process_react_binary "Y\nn\nz\n", v = 4 ∨ v = 0) :=
  ⟨(C6_binary_reader "" " y ").2.1 (by decide),
   (C6_binary_reader "" "n").2.2.1 (by decide),
   (C6_binary_reader "" "x").2.2.2.1 (by decide) (by decide),
   (C6_binary_reader "Y\nn\nz\n" "").2.2.2.2⟩

/-- C7, counterexample. The claim says text before the first delimiter is
always discarded, but the parser treats a nonempty pre-delimiter fragment
as an ordinary record: on "junk\nABC\n>h\nSEQ" it emits "ABC", which
originates entirely from the pre-delimiter text (removing that text yields
only "SEQ"). -/
theorem C7_counterexample :
    parseFastaContent "junk\nABC\n>h\nSEQ" false = ["ABC", "SEQ"]
    ∧ parseFastaContent ">h\nSEQ" false = ["SEQ"] :=
  ⟨by decide, by decide⟩

/-- C7, amended. The pre-delimiter fragment is discarded only when it is
whitespace-only or cleans to an empty sequence; in particular, when the
stripped file content begins with the delimiter (the normal FASTA case) the
pre-delimiter fragment is empty and contributes nothing, the result coming
solely from the fragments after the first delimiter. -/
theorem C7_preheader_amended (content : String) (make_uppercase : Bool)
    (h : (stripList content.toList).head? = some '>') :
    parseFastaContent content make_uppercase =
      ((splitOnChar '>' (stripList content.toList)).drop 1).filterMap
        (cleanBlock make_uppercase) := by
  unfold parseFastaContent
  cases hsl : stripList content.toList with
  | nil => rw [hsl] at h; exact Option.noConfusion h
  | cons a rest =>
    rw [hsl] at h
    have ha : a = '>' := by simpa using h
    subst ha
    rw [splitOnChar_sep_head]
    simp [List.filterMap_cons, show cleanBlock make_uppercase [] = none from rfl]

/-- Witness for the amended C7 on a file that starts with the delimiter. -/
theorem C7_preheader_amended_witness :
    parseFastaContent ">a\nCG" false =
      ((splitOnChar '>' (stripList ">a\nCG".toList)).drop 1).filterMap
        (cleanBlock false) :=
  C7_preheader_amended ">a\nCG" false (by decide)

/-- C8, counterexample. The claim says every record's NumReact is
non-negative, but the numeric reader passes negative integers through: with
`./flu_NumReact.txt` containing "-5" the run produces a record with
NumReact = -5. -/
theorem C8_counterexample :
    runRecords cfs8 = [⟨"flu", -5, "AAA", "CCC"⟩]
    ∧ ((-5 : Int) < 0) :=
  ⟨by decide, by decide⟩

/-- C8, amended. Records coming from the binary reader carry only 4 or 0,
so they are always non-negative; records from the numeric reader carry
whatever integer the file contains, so every record's NumReact is
non-negative exactly under the assumption that the numeric reactivity
files of the four numeric datasets contain only non-negative values. -/
theorem C8_nonneg_amended (fs : FS)
    (hnum : ∀ l ∈ (["flu", "gut_hiv", "nat_cntrl", "nat_hiv"] : List String),
      ∀ rc vs, fs (reactPath l) = some rc → reactRun l rc = .ok vs →
        ∀ v ∈ vs, 0 ≤ v) :
    ∀ r ∈ runRecords fs, 0 ≤ r.NumReact := by
  have hbin : ∀ (lb : String), isBinaryLabel lb = true →
      ∀ (rc : String) (vs : List Int), reactRun lb rc = .ok vs →
        ∀ v ∈ vs, 0 ≤ v := by
    intro lb hb rc vs hrr v hv
    unfold reactRun at hrr
    rw [if_pos hb] at hrr
    have heq := Except.ok.inj hrr
    rw [← heq] at hv
    rcases mem_process_react_binary hv with rfl | rfl <;> decide
  intro r hr
  unfold runRecords at hr
  cases hrl : runLabels fs labels with
  | error e => rw [hrl] at hr; simp at hr
  | ok p =>
    obtain ⟨recs, logs⟩ := p
    rw [hrl] at hr
    dsimp only at hr
    obtain ⟨l, hlm, rs, lg, hpl, hrm⟩ := mem_runLabels hrl hr
    obtain ⟨rc, vs, hrc, hrr, hnm⟩ := mem_processLabel_react hpl hrm
    simp only [labels, List.mem_cons, List.not_mem_nil, or_false] at hlm
    rcases hlm with rfl | rfl | rfl | rfl | rfl | rfl
    · exact hnum "flu" (by decide) rc vs hrc hrr _ hnm
    · exact hnum "gut_hiv" (by decide) rc vs hrc hrr _ hnm
    · exact hnum "nat_cntrl" (by decide) rc vs hrc hrr _ hnm
    · exact hnum "nat_hiv" (by decide) rc vs hrc hrr _ hnm
    · exact hbin "plos_hiv" (by decide) rc vs hrr _ hnm
    · exact hbin "mouse" (by decide) rc vs hrr _ hnm

/-- Witness for the amended C8: a mouse-only file system, where the numeric
hypothesis holds vacuously and the single record has NumReact = 4. -/
theorem C8_nonneg_amended_witness :
    (0 : Int) ≤ (ConsolidatedRecord.mk "mouse" 4 "ACGT" "TGCA").NumReact := by
  have hnum : ∀ l ∈ (["flu", "gut_hiv", "nat_cntrl", "nat_hiv"] : List String),
      ∀ rc vs, fs8w (reactPath l) = some rc → reactRun l rc = .ok vs →
        ∀ v ∈ vs, 0 ≤ v := by
    intro l hl rc vs hrc
    fin_cases hl
    · exact Option.noConfusion
        ((show fs8w (reactPath "flu") = none from rfl).symm.trans hrc)
    · exact Option.noConfusion
        ((show fs8w (reactPath "gut_hiv") = none from rfl).symm.trans hrc)
    · exact Option.noConfusion
        ((show fs8w (reactPath "nat_cntrl") = none from rfl).symm.trans hrc)
    · exact Option.noConfusion
        ((show fs8w (reactPath "nat_hiv") = none from rfl).symm.trans hrc)
  exact C8_nonneg_amended fs8w hnum ⟨"mouse", 4, "ACGT", "TGCA"⟩ (by decide)

/-- C9. Every string emitted by the parser with the uppercasing flag set is
a fixed point of the uppercase transformation: uppercasing it again leaves
it unchanged. -/
theorem C9_upper_idempotent (content : String) (s : String)
    (hs : s ∈ parseFastaContent content true) : pyUpper s = s := by
  obtain ⟨b, hb, hcb⟩ := mem_parseFastaContent hs
  obtain ⟨rfl, hne⟩ := cleanBlock_eq_some hcb
  show String.mk ((String.mk (cleanSeq true b)).toList.map pyUpperChar) = _
  have ht : (String.mk (cleanSeq true b)).toList = cleanSeq true b := rfl
  rw [ht, cleanSeq_true b, map_upper_idem, ← cleanSeq_true b]

/-- Witness for C9 on mixed-case mouse-style input. -/
theorem C9_upper_idempotent_witness :
    "ACG" ∈ parseFastaContent ">h\nacg" true ∧ pyUpper "ACG" = "ACG" :=
  ⟨by decide, C9_upper_idempotent ">h\nacg" "ACG" (by decide)⟩

/-- C10. When the driver loop completes without an unhandled error the
output file is written exactly once, containing the serialization of the
accumulated record list, followed by the two summary lines; in particular,
when every dataset is skipped (zero accumulated records) the output file is
still written, containing the empty array "[]", and the summary reports
zero records. -/
theorem C10_output_written (fs : FS) :
    (∀ res, runScript fs = .ok res →
      ∃ recs logs, runLabels fs labels = .ok (recs, logs) ∧
        res.written = [(output_filename, jsonSerialize recs)] ∧
        res.stdout = logs ++ [successMsg, totalMsg recs.length])
    ∧ (∀ logs, runLabels fs labels = .ok ([], logs) →
        runScript fs = .ok ⟨[(output_filename, "[]")],
          logs ++ [successMsg, totalMsg 0]⟩) := by
  constructor
  · intro res hres
    unfold runScript at hres
    cases hrl : runLabels fs labels with
    | error e => rw [hrl] at hres; exact absurd hres (by simp)
    | ok p =>
      obtain ⟨recs, logs⟩ := p
      rw [hrl] at hres
      dsimp only at hres
      have hres' := Except.ok.inj hres
      subst hres'
      exact ⟨recs, logs, rfl, rfl, rfl⟩
  · intro logs hrl
    unfold runScript
    rw [hrl]
    rfl

/-- Witness for C10: with no input files at all, every dataset is skipped
and the script still writes "[]" and reports zero records. -/
theorem C10_output_written_witness :
    runScript emptyFS = .ok ⟨[(output_filename, "[]")],
      emptyLogs ++ [successMsg, totalMsg 0]⟩ :=
  (C10_output_written emptyFS).2 emptyLogs (by rfl)

end Consolidate
